import Mathlib

/-!
# Verification of the `beach` chroot builder

A shallow embedding of `src/chroot.rs` from the `oceanpkg/beach` crate.
The crate is a builder (`Chroot`) for invocations of the external
`chroot(1)` utility.  `OsString` values are modelled as `String`;
the `std::process::Command` value built by `command_impl` is modelled as a
structure holding the program name and the ordered argument list, with
`Command::arg` appending one argument.
-/

/-- Model of `std::process::Command` as far as this crate uses it:
a program name and the ordered list of arguments accumulated so far. -/
structure Command where
  program : String
  args : List String
  deriving DecidableEq

/-- `Command::new(program)`: no arguments yet. -/
def Command.new (program : String) : Command :=
  { program := program, args := [] }

/-- `Command::arg`: append one argument. -/
def Command.arg (cmd : Command) (a : String) : Command :=
  { cmd with args := cmd.args ++ [a] }

/-- The full invocation a `Command` describes: program name followed by its
arguments, in order. -/
def Command.invocation (cmd : Command) : List String :=
  cmd.program :: cmd.args

/-- The `Chroot` configuration struct of `src/chroot.rs`:
`skip_chdir: bool`, `user_spec: Option<OsString>`, `groups: Option<OsString>`. -/
structure Chroot where
  skip_chdir : Bool
  user_spec : Option String
  groups : Option String
  deriving DecidableEq

/-- `Chroot::new`: all options unset. -/
def Chroot.new : Chroot :=
  { skip_chdir := false, user_spec := none, groups := none }

/-- `Chroot::skip_chdir` (primed because the field projection takes the
source name): sets the `skip_chdir` field to `true`. -/
def Chroot.skip_chdir' (c : Chroot) : Chroot :=
  { c with skip_chdir := true }

/-- `Chroot::user`: sets `user_spec` to `"--userspec=" ++ user`. -/
def Chroot.user (c : Chroot) (user : String) : Chroot :=
  { c with user_spec := some ("--userspec=" ++ user) }

/-- `Chroot::user_group`: sets `user_spec` to
`"--userspec=" ++ user ++ ":" ++ group`. -/
def Chroot.user_group (c : Chroot) (user group : String) : Chroot :=
  { c with user_spec := some ("--userspec=" ++ user ++ ":" ++ group) }

/-- `Chroot::groups` (primed because the field projection takes the source
name): if the iterator is empty the configuration is returned unchanged;
otherwise the `groups` field is assigned `"--groups=" ++ first` with the
remaining groups folded on as `"," ++ group`, exactly as the source loop
does. -/
def Chroot.groups' (c : Chroot) (gs : List String) : Chroot :=
  match gs with
  | [] => c
  | group :: rest =>
      let arg := rest.foldl (fun arg g => arg ++ "," ++ g) ("--groups=" ++ group)
      { c with groups := some arg }

/-- `Chroot::command_impl`: builds `Command::new("chroot")`, then conditionally
adds `--skip-chdir`, the `user_spec` argument, the `groups` argument, and
finally the root and the program. -/
def Chroot.command_impl (c : Chroot) (root program : String) : Command :=
  let command := Command.new "chroot"
  let command := if c.skip_chdir then command.arg "--skip-chdir" else command
  let command :=
    match c.user_spec with
    | some user_spec => command.arg user_spec
    | none => command
  let command :=
    match c.groups with
    | some groups => command.arg groups
    | none => command
  let command := command.arg root
  command.arg program

/-- `Chroot::command`: delegates to `command_impl`. -/
def Chroot.command (c : Chroot) (root program : String) : Command :=
  c.command_impl root program

/-- `Chroot::command` in explicit state-passing form: the Rust method takes
`&self` (an immutable borrow), so the caller's configuration after the call
is the configuration before the call, returned here as the second component. -/
def Chroot.command_st (c : Chroot) (root program : String) : Command × Chroot :=
  (c.command_impl root program, c)

/-- The full invocation obtained from `command` followed by one `Command::arg`
call per extra argument (as in the crate's doc example
`.command(root, program).arg(x)`): program name plus ordered arguments. -/
def Chroot.build_invocation (c : Chroot) (root program : String)
    (extra : List String) : List String :=
  (extra.foldl Command.arg (c.command root program)).invocation

/-- Modelled from the spec: groups "are joined with `,` in the order given";
an independent rendering of a comma-joined list, to compare with what the
source fold produces. -/
def commaJoined : List String → String
  | [] => ""
  | [g] => g
  | g :: rest => g ++ "," ++ commaJoined rest

/-! ## Helper lemmas -/

theorem Command.foldl_arg (xs : List String) (cmd : Command) :
    xs.foldl Command.arg cmd = { cmd with args := cmd.args ++ xs } := by
  induction xs generalizing cmd with
  | nil => simp
  | cons x xs ih =>
      simp [List.foldl_cons, ih, Command.arg, List.append_assoc]

theorem Chroot.build_invocation_spec (c : Chroot) (root program : String)
    (extra : List String) :
    c.build_invocation root program extra =
      ["chroot"] ++ (if c.skip_chdir then ["--skip-chdir"] else [])
        ++ c.user_spec.toList ++ c.groups.toList ++ [root, program] ++ extra := by
  obtain ⟨sk, us, gr⟩ := c
  cases sk <;> cases us <;> cases gr <;>
    simp [Chroot.build_invocation, Chroot.command, Chroot.command_impl,
      Command.foldl_arg, Command.new, Command.arg, Command.invocation]

theorem Chroot.groups_fold_eq_commaJoined (g : String) (rest : List String) :
    rest.foldl (fun arg x => arg ++ "," ++ x) ("--groups=" ++ g) =
      "--groups=" ++ commaJoined (g :: rest) := by
  induction rest generalizing g with
  | nil => rfl
  | cons r rest ih =>
      have hj : commaJoined (g :: r :: rest) = g ++ "," ++ commaJoined (r :: rest) := by
        cases rest <;> rfl
      calc (r :: rest).foldl (fun arg x => arg ++ "," ++ x) ("--groups=" ++ g)
          = rest.foldl (fun arg x => arg ++ "," ++ x) ("--groups=" ++ g ++ "," ++ r) := by
            simp [List.foldl_cons]
        _ = rest.foldl (fun arg x => arg ++ "," ++ x) ("--groups=" ++ (g ++ "," ++ r)) := by
            simp [String.append_assoc]
        _ = "--groups=" ++ commaJoined ((g ++ "," ++ r) :: rest) := ih (g ++ "," ++ r)
        _ = "--groups=" ++ commaJoined (g :: r :: rest) := by
            cases rest with
            | nil => simp [commaJoined, hj]
            | cons a l =>
                simp [commaJoined, hj, String.append_assoc]

/-! ## Claims -/

/-- C1: the chained invocation
`new().skip_chdir().user_and_group("nvzqz","everyone").groups(["wheel","docker"])`
built against root `/path/to/root`, program `ls`, extra argument `/` yields
exactly `["chroot", "--skip-chdir", "--userspec=nvzqz:everyone",
"--groups=wheel,docker", "/path/to/root", "ls", "/"]`. -/
theorem chained_example_invocation :
    ((((Chroot.new.skip_chdir').user_group "nvzqz" "everyone").groups'
        ["wheel", "docker"]).build_invocation "/path/to/root" "ls" ["/"]) =
      ["chroot", "--skip-chdir", "--userspec=nvzqz:everyone",
        "--groups=wheel,docker", "/path/to/root", "ls", "/"] := by
  decide

/-- C2: for every root and program, a fresh configuration with no options and
no extra arguments builds exactly `["chroot", root, program]`. -/
theorem new_build_invocation (root program : String) :
    Chroot.new.build_invocation root program [] = ["chroot", root, program] := by
  simp [Chroot.build_invocation_spec, Chroot.new]

/-- C3: the built invocation always lists `--skip-chdir`, then `--userspec=...`,
then `--groups=...`, then root, program and extra arguments in that fixed
order, each flag present exactly when the corresponding field is set, and the
setters commute, so the order of builder calls does not matter. -/
theorem invocation_flag_order (c : Chroot) (root program : String)
    (extra : List String) :
    (c.build_invocation root program extra =
      ["chroot"] ++ (if c.skip_chdir then ["--skip-chdir"] else [])
        ++ c.user_spec.toList ++ c.groups.toList ++ [root, program] ++ extra)
    ∧ (∀ u, (c.skip_chdir').user u = (c.user u).skip_chdir')
    ∧ (∀ u g, (c.skip_chdir').user_group u g = (c.user_group u g).skip_chdir')
    ∧ (∀ gs, (c.skip_chdir').groups' gs = (c.groups' gs).skip_chdir')
    ∧ (∀ u gs, (c.user u).groups' gs = (c.groups' gs).user u)
    ∧ (∀ u g gs, (c.user_group u g).groups' gs = (c.groups' gs).user_group u g) := by
  refine ⟨Chroot.build_invocation_spec c root program extra, fun u => rfl,
    fun u g => rfl, fun gs => ?_, fun u gs => ?_, fun u g gs => ?_⟩
  · cases gs <;> rfl
  · cases gs <;> rfl
  · cases gs <;> rfl

/-- C4: the user specification is last-write-wins: any later call to `user` or
`user_group` entirely discards the earlier value; `user("alice")` alone puts
`--userspec=alice` into the invocation, and following it with
`user_group("bob","staff")` yields an invocation containing only
`--userspec=bob:staff`. -/
theorem user_spec_last_write_wins :
    (∀ (c : Chroot) (u u' g : String), (c.user u).user_group u' g = c.user_group u' g)
    ∧ (∀ (c : Chroot) (u g u' : String), (c.user_group u g).user u' = c.user u')
    ∧ (∀ (c : Chroot) (u u' : String), (c.user u).user u' = c.user u')
    ∧ (∀ (c : Chroot) (u g u' g' : String),
        (c.user_group u g).user_group u' g' = c.user_group u' g')
    ∧ (∀ root program : String,
        "--userspec=alice" ∈ (Chroot.new.user "alice").build_invocation root program [])
    ∧ (∀ root program : String,
        ((Chroot.new.user "alice").user_group "bob" "staff").build_invocation
            root program []
          = ["chroot", "--userspec=bob:staff", root, program]) := by
  have ha : ("--userspec=" ++ "alice" : String) = "--userspec=alice" := by decide
  have hb : ("--userspec=" ++ "bob" ++ ":" ++ "staff" : String)
      = "--userspec=bob:staff" := by decide
  refine ⟨fun c u u' g => rfl, fun c u g u' => rfl, fun c u u' => rfl,
    fun c u g u' g' => rfl, fun root program => ?_, fun root program => ?_⟩
  · simp [Chroot.build_invocation_spec, Chroot.new, Chroot.user, ha]
  · simp [Chroot.build_invocation_spec, Chroot.new, Chroot.user,
      Chroot.user_group, hb]

/-- C5: a non-empty group list is rendered as one `--groups=` argument whose
value is the inputs joined with commas, order and duplicates preserved;
`groups(["a","b","c"])` yields `--groups=a,b,c` and `groups(["a","a"])`
yields `--groups=a,a`. -/
theorem groups_comma_joined :
    (∀ (c : Chroot) (g : String) (rest : List String),
        (c.groups' (g :: rest)).groups = some ("--groups=" ++ commaJoined (g :: rest)))
    ∧ (Chroot.new.groups' ["a", "b", "c"]).groups = some "--groups=a,b,c"
    ∧ (Chroot.new.groups' ["a", "a"]).groups = some "--groups=a,a"
    ∧ (∀ root program : String,
        (Chroot.new.groups' ["a", "b", "c"]).build_invocation root program []
          = ["chroot", "--groups=a,b,c", root, program]) := by
  have habc : (Chroot.new.groups' ["a", "b", "c"]).groups = some "--groups=a,b,c" := by
    decide
  refine ⟨fun c g rest => ?_, habc, by decide, fun root program => ?_⟩
  · simp [Chroot.groups', Chroot.groups_fold_eq_commaJoined]
  · have hc : Chroot.new.groups' ["a", "b", "c"]
        = { skip_chdir := false, user_spec := none,
            groups := some "--groups=a,b,c" } := by
      decide
    simp [Chroot.build_invocation_spec, hc]

/-- C6: `groups([])` is a no-op on every configuration: it changes nothing,
so prefixing any `groups(xs)` call with it is invisible and the built
invocation is unchanged. -/
theorem groups_empty_noop (c : Chroot) :
    c.groups' [] = c
    ∧ (∀ xs : List String, (c.groups' []).groups' xs = c.groups' xs)
    ∧ (∀ (root program : String) (extra : List String),
        (c.groups' []).build_invocation root program extra
          = c.build_invocation root program extra) :=
  ⟨rfl, fun _ => rfl, fun _ _ _ => rfl⟩

theorem Chroot.iterate_skip_chdir (m : Nat) (c : Chroot) :
    Chroot.skip_chdir'^[m] c.skip_chdir' = c.skip_chdir' := by
  induction m with
  | zero => rfl
  | succ m ih =>
      rw [Function.iterate_succ_apply]
      have h : (c.skip_chdir').skip_chdir' = c.skip_chdir' := rfl
      rw [h, ih]

/-- C7: calling `skip_chdir` any number of times at least once is the same as
calling it once; the built invocation then starts `["chroot", "--skip-chdir"]`
followed by the user/group flags, root, program and extras, and (when no other
argument happens to equal the flag string) contains exactly one
`--skip-chdir`. -/
theorem skip_chdir_idempotent (n : Nat) (c : Chroot) (root program : String)
    (extra : List String) (hn : 1 ≤ n)
    (hu : ∀ u ∈ c.user_spec, u ≠ "--skip-chdir")
    (hg : ∀ g ∈ c.groups, g ≠ "--skip-chdir")
    (hr : root ≠ "--skip-chdir") (hp : program ≠ "--skip-chdir")
    (he : "--skip-chdir" ∉ extra) :
    Chroot.skip_chdir'^[n] c = c.skip_chdir'
    ∧ (Chroot.skip_chdir'^[n] c).build_invocation root program extra
        = ["chroot", "--skip-chdir"] ++ c.user_spec.toList ++ c.groups.toList
            ++ [root, program] ++ extra
    ∧ ((Chroot.skip_chdir'^[n] c).build_invocation root program extra).count
        "--skip-chdir" = 1 := by
  obtain ⟨m, rfl⟩ : ∃ m, n = m + 1 := ⟨n - 1, (Nat.succ_pred_eq_of_pos hn).symm⟩
  have hit : Chroot.skip_chdir'^[m + 1] c = c.skip_chdir' := by
    rw [Function.iterate_succ_apply, Chroot.iterate_skip_chdir]
  have hshape : (Chroot.skip_chdir'^[m + 1] c).build_invocation root program extra
      = ["chroot", "--skip-chdir"] ++ c.user_spec.toList ++ c.groups.toList
          ++ [root, program] ++ extra := by
    rw [hit, Chroot.build_invocation_spec]
    simp [Chroot.skip_chdir']
  refine ⟨hit, hshape, ?_⟩
  rw [hshape]
  have hch : ("chroot" : String) ≠ "--skip-chdir" := by decide
  have hus : (c.user_spec.toList).count "--skip-chdir" = 0 := by
    cases h : c.user_spec with
    | none => rfl
    | some u => simp [List.count_cons, hu u (by rw [h]; rfl)]
  have hgs : (c.groups.toList).count "--skip-chdir" = 0 := by
    cases h : c.groups with
    | none => rfl
    | some g => simp [List.count_cons, hg g (by rw [h]; rfl)]
  have hex : extra.count "--skip-chdir" = 0 := List.count_eq_zero.mpr he
  simp [List.count_append, List.count_cons, hch, hus, hgs, hex, hr, hp]

/-- Instantiation of the C7 theorem at `n = 2` on a fresh configuration with
root `/r`, program `ls` and no extra arguments. -/
theorem skip_chdir_idempotent_witness :
    Chroot.skip_chdir'^[2] Chroot.new = Chroot.new.skip_chdir'
    ∧ (Chroot.skip_chdir'^[2] Chroot.new).build_invocation "/r" "ls" []
        = ["chroot", "--skip-chdir"] ++ Chroot.new.user_spec.toList
            ++ Chroot.new.groups.toList ++ ["/r", "ls"] ++ []
    ∧ ((Chroot.skip_chdir'^[2] Chroot.new).build_invocation "/r" "ls" []).count
        "--skip-chdir" = 1 :=
  skip_chdir_idempotent 2 Chroot.new "/r" "ls" [] (by decide)
    (by simp [Chroot.new]) (by simp [Chroot.new]) (by decide) (by decide)
    (by simp)

/-- C8 counterexample: groups do NOT accumulate. After `groups(["a"])`, a
second call `groups(["b"])` leaves `--groups=b` alone in the configuration and
the built invocation; the accumulated value `--groups=a,b` appears nowhere. -/
theorem groups_do_not_accumulate :
    ((Chroot.new.groups' ["a"]).groups' ["b"]).groups = some "--groups=b"
    ∧ ((Chroot.new.groups' ["a"]).groups' ["b"]).build_invocation "/r" "p" []
        = ["chroot", "--groups=b", "/r", "p"]
    ∧ "--groups=a,b" ∉
        ((Chroot.new.groups' ["a"]).groups' ["b"]).build_invocation "/r" "p" [] := by
  decide

/-- C8 amended: supplementary groups have the same overwrite semantics as the
user specification, not accumulate semantics: a later call to `groups` with a
non-empty sequence entirely replaces the previously supplied group list. -/
theorem groups_overwrite (c : Chroot) (gs : List String) (g : String)
    (rest : List String) :
    (c.groups' gs).groups' (g :: rest) = c.groups' (g :: rest) := by
  cases gs <;> rfl

/-- C9: `command` borrows the configuration immutably: in state-passing form
the configuration handed back to the caller is the one passed in, every field
unchanged, and repeated calls return the same `Command`. -/
theorem command_borrows_immutably (c : Chroot) (root program : String) :
    (c.command_st root program).2 = c
    ∧ ((c.command_st root program).2).skip_chdir = c.skip_chdir
    ∧ ((c.command_st root program).2).user_spec = c.user_spec
    ∧ ((c.command_st root program).2).groups = c.groups
    ∧ (c.command_st root program).1 = c.command root program
    ∧ ((c.command_st root program).2.command_st root program).1
        = (c.command_st root program).1 :=
  ⟨rfl, rfl, rfl, rfl, rfl, rfl⟩

/-- C10: the user setters validate nothing: `user("")` sets the specification
so the invocation carries the bare argument `--userspec=`, `user_group(u,"")`
yields `--userspec=u:`, and both setters always set the field for every
input. -/
theorem user_setters_no_validation :
    (∀ c : Chroot, (c.user "").user_spec = some "--userspec=")
    ∧ (∀ (c : Chroot) (u : String),
        (c.user_group u "").user_spec = some ("--userspec=" ++ u ++ ":"))
    ∧ (∀ (c : Chroot) (u : String), (c.user u).user_spec = some ("--userspec=" ++ u))
    ∧ (∀ (c : Chroot) (u g : String),
        (c.user_group u g).user_spec = some ("--userspec=" ++ u ++ ":" ++ g))
    ∧ (∀ root program : String,
        "--userspec=" ∈ (Chroot.new.user "").build_invocation root program []) := by
  have h0 : ("--userspec=" ++ "" : String) = "--userspec=" := by decide
  refine ⟨fun c => ?_, fun c u => ?_, fun c u => rfl, fun c u g => rfl,
    fun root program => ?_⟩
  · simp [Chroot.user, h0]
  · simp [Chroot.user_group, String.append_empty]
  · simp [Chroot.build_invocation_spec, Chroot.new, Chroot.user, h0]
